import Mathlib

/-!
Verification of the file2do backend (src/app.js) against its specification.

The repository is an Express HTTP gateway; the only data-model logic is the
PDF page-assembly code of the POST /organize-pdf and POST /rotate-pdf
handlers, plus small parameter-parsing computations in the compression
endpoints.  This file embeds that logic shallowly: pages are records of
opaque content plus a rotation value, documents are lists of pages, handler
control flow becomes `Option`/`Except` values, and JS integer arithmetic is
`Int` with the JS `%` operator rendered as `Int.tmod` (truncated remainder,
sign of the dividend).  Library primitives of pdf-lib that the handlers call
(page copying, serialization) are not part of the repository; they are
modelled from the specification, as marked on each such definition.
-/

deriving instance DecidableEq for Except

/-- A page of a document: opaque content (`none` for a synthesized blank
page, `some c` for a content block of a source document) and the rotation
value in degrees stored in the page metadata. -/
structure Page where
  content : Option Nat
  rotation : Int
deriving DecidableEq, Repr

/-- The blank page appended by the reorganize flow (src/app.js lines
410-412: `newPdf.addPage()` then drawing the empty string): a fresh page
has no content and rotation 0. -/
def blankPage : Page := { content := none, rotation := 0 }

/-- Modelled from the spec: the page-copy primitive of the Page Assembly
Engine (pdf-lib `copyPages`, not part of this repository).  Copying an
in-range index yields a copy of that source page; an out-of-range index is
`InvalidPageReference` and fails (spec section 7), which in the handlers
surfaces as a thrown exception. -/
def copyPage (source : List Page) (idx : Int) : Option Page :=
  if idx < 0 then none else source[idx.toNat]?

/-- An element of the parsed `actions` array of POST /organize-pdf
(src/app.js line 405): either the string `blank` or a page index. -/
inductive OrganizeAction where
  | blank
  | page (idx : Int)
deriving DecidableEq, Repr

/-- The page-assembly loop of POST /organize-pdf (src/app.js lines
409-417): a blank marker appends a fresh blank page; any other action
copies that source page and appends it.  A failing copy throws past the
loop, so the whole assembly produces no document. -/
def assembleOrganize (source : List Page) : List OrganizeAction → Option (List Page)
  | [] => some []
  | OrganizeAction.blank :: rest =>
      (assembleOrganize source rest).map (fun ps => blankPage :: ps)
  | OrganizeAction.page i :: rest =>
      match copyPage source i with
      | none => none
      | some p => (assembleOrganize source rest).map (fun ps => p :: ps)

/-- Modelled from the spec: serialization of an Output Document to a byte
result (pdf-lib `save`, not part of this repository): a deterministic
encoding, one record per page in order, preceded by a fixed header. -/
def encodePage (p : Page) : List Int :=
  match p.content with
  | none => [0, p.rotation]
  | some c => [1, Int.ofNat c, p.rotation]

/-- Modelled from the spec: the full serialized byte result, header plus
the page records in document order. -/
def save (doc : List Page) : List Int :=
  [37, 80, 68, 70] ++ doc.flatMap encodePage

/-- The response step of POST /organize-pdf after `newPdf.save()`
(src/app.js lines 419-426): the bytes are written out and the handler
responds with a download URL and the byte length, with no check on the
serialized result. -/
def organizeFinish (bytes : List Int) : Except Nat (List Int) :=
  Except.ok bytes

/-- The response step of POST /rotate-pdf after `newPdf.save()`
(src/app.js lines 583-597): an empty byte result throws (line 585), which
the catch block turns into a 500 error; otherwise the handler responds
with the bytes. -/
def rotateFinish (bytes : List Int) : Except Nat (List Int) :=
  if bytes.length = 0 then Except.error 500 else Except.ok bytes

/-- POST /organize-pdf (src/app.js lines 395-432) after input parsing: run
the assembly loop; a thrown per-page error reaches the catch block and
yields a 500 error; otherwise serialize and respond. -/
def organizeHandler (source : List Page) (actions : List OrganizeAction) :
    Except Nat (List Int) :=
  match assembleOrganize source actions with
  | none => Except.error 500
  | some pages => organizeFinish (save pages)

/-- An element of the parsed `actions` array of POST /rotate-pdf
(src/app.js line 564): a source page index and a rotation angle. -/
structure RotateAction where
  originalIndex : Int
  rotation : Int
deriving DecidableEq, Repr

/-- The angle normalization of POST /rotate-pdf (src/app.js line 575):
`(rotation % 360 + 360) % 360`, with the JS `%` operator being the
truncated remainder `Int.tmod`. -/
def normalizeAngle (rotation : Int) : Int :=
  Int.tmod (Int.tmod rotation 360 + 360) 360

/-- src/app.js lines 575-578: the normalized angle is set on the copied
page only when it is nonzero; otherwise the copied page keeps the rotation
it inherited from the source page. -/
def applyRotation (p : Page) (rotation : Int) : Page :=
  if normalizeAngle rotation ≠ 0 then { p with rotation := normalizeAngle rotation } else p

/-- The page loop of POST /rotate-pdf (src/app.js lines 564-581): an index
at or above the page count is skipped (`continue`, line 570); otherwise
the page is copied (a negative index makes the copy primitive fail,
throwing past the loop), the rotation is applied and the page appended. -/
def assembleRotate (source : List Page) : List RotateAction → Option (List Page)
  | [] => some []
  | a :: rest =>
      if a.originalIndex ≥ (source.length : Int) then
        assembleRotate source rest
      else
        match copyPage source a.originalIndex with
        | none => none
        | some p =>
            (assembleRotate source rest).map (fun ps => applyRotation p a.rotation :: ps)

/-- POST /rotate-pdf (src/app.js lines 541-604) after input parsing: run
the page loop; a thrown error reaches the catch block and yields a 500
error; otherwise serialize and run the empty-result check before
responding. -/
def rotateHandler (source : List Page) (actions : List RotateAction) :
    Except Nat (List Int) :=
  match assembleRotate source actions with
  | none => Except.error 500
  | some pages => rotateFinish (save pages)

/-- The JS idiom `parseInt(x) || d` (src/app.js lines 56, 84, 503, 615):
a `parseInt` result of NaN (missing or non-numeric input) is modelled as
`none`; the JS `||` also replaces a parsed 0 by the default, because 0 is
falsy. -/
def jsParseIntOrDefault (parsed : Option Int) (d : Int) : Int :=
  match parsed with
  | none => d
  | some v => if v = 0 then d else v

/-- The Ghostscript quality settings of POST /compress-pdf (src/app.js
lines 156-160). -/
inductive GsSetting where
  | screen
  | ebook
  | printer
  | prepress
deriving DecidableEq, Repr

/-- Which compression path POST /compress-pdf takes (src/app.js lines
89, 151): the rasterize-and-reassemble extreme path, or the Ghostscript
standard path with a quality setting. -/
inductive CompressMethod where
  | extreme
  | standard (s : GsSetting)
deriving DecidableEq, Repr

/-- The Ghostscript setting chain of POST /compress-pdf (src/app.js lines
156-160): initialized to `/ebook`, then overwritten by the if-else
chain. -/
def chooseSetting (compression : Int) : GsSetting :=
  if compression ≥ 80 then GsSetting.screen
  else if compression ≥ 60 then GsSetting.ebook
  else if compression ≥ 40 then GsSetting.printer
  else GsSetting.prepress

/-- The branch selection of POST /compress-pdf (src/app.js lines 84-160):
`parseInt(req.body.compression) || 60`, then the extreme path when the
result is at least 90, else the Ghostscript path with the chosen
setting. -/
def compressPdfRoute (parsed : Option Int) : CompressMethod :=
  let compression := jsParseIntOrDefault parsed 60
  if compression ≥ 90 then CompressMethod.extreme
  else CompressMethod.standard (chooseSetting compression)

/-- The encoder quality computation of POST /upload (src/app.js lines
56-57): `Math.max(10, 100 - compression)` with
`compression = parseInt(req.body.compression) || 60`. -/
def uploadQuality (parsed : Option Int) : Int :=
  max 10 (100 - jsParseIntOrDefault parsed 60)

/-- The page a valid reorganize action contributes to the output: a blank
marker the blank page, a copy action the referenced source page. -/
def resolveAction (source : List Page) : OrganizeAction → Page
  | OrganizeAction.blank => blankPage
  | OrganizeAction.page i => (copyPage source i).getD blankPage

/-- Whether a reorganize action only uses in-range indices. -/
def actionInRange (source : List Page) : OrganizeAction → Bool
  | OrganizeAction.blank => true
  | OrganizeAction.page i => decide (0 ≤ i ∧ i < (source.length : Int))

/-- The pages the rotate loop produces when every index is nonnegative:
the actions with an index below the page count, in order, each resolved to
the rotated copy of its source page. -/
def rotateResolve (source : List Page) (actions : List RotateAction) : List Page :=
  (actions.filter (fun a => decide (a.originalIndex < (source.length : Int)))).map
    (fun a => applyRotation ((copyPage source a.originalIndex).getD blankPage) a.rotation)

/-- An in-range index makes the copy primitive succeed. -/
theorem copyPage_inRange (source : List Page) (i : Int) (h0 : 0 ≤ i)
    (h1 : i < (source.length : Int)) :
    ∃ p, copyPage source i = some p := by
  have hlt : i.toNat < source.length := by omega
  unfold copyPage
  rw [if_neg (by omega), List.getElem?_eq_getElem hlt]
  exact ⟨_, rfl⟩

/-- An out-of-range index makes the copy primitive fail. -/
theorem copyPage_outOfRange (source : List Page) (i : Int)
    (h : i < 0 ∨ (source.length : Int) ≤ i) :
    copyPage source i = none := by
  unfold copyPage
  rcases h with h | h
  · rw [if_pos h]
  · rw [if_neg (by omega)]
    exact List.getElem?_eq_none (by omega)

/-- The truncated remainder by 360 lies strictly between -360 and 360. -/
theorem tmod_360_bounds : ∀ a : Int, -360 < Int.tmod a 360 ∧ Int.tmod a 360 < 360
  | Int.ofNat m => by
      refine ⟨?_, Int.tmod_lt_of_pos _ (by decide)⟩
      have h := Int.tmod_nonneg (a := Int.ofNat m) 360 (Int.ofNat_nonneg m)
      omega
  | Int.negSucc m => by
      have h1 : Int.tmod (Int.negSucc m) 360 = -((m.succ % 360 : Nat) : Int) := rfl
      have h2 : m.succ % 360 < 360 := Nat.mod_lt _ (by omega)
      rw [h1]
      omega

/-- The normalized angle always lies in `[0, 360)`. -/
theorem normalizeAngle_bounds (rotation : Int) :
    0 ≤ normalizeAngle rotation ∧ normalizeAngle rotation < 360 := by
  obtain ⟨hlo, _⟩ := tmod_360_bounds rotation
  unfold normalizeAngle
  exact ⟨Int.tmod_nonneg _ (by omega), Int.tmod_lt_of_pos _ (by decide)⟩

/-- When every action is in range, the reorganize loop succeeds and maps
each action to its resolved page, in list order. -/
theorem assembleOrganize_eq_map (source : List Page) :
    ∀ actions : List OrganizeAction,
      (∀ a ∈ actions, actionInRange source a = true) →
      assembleOrganize source actions = some (actions.map (resolveAction source))
  | [], _ => rfl
  | OrganizeAction.blank :: rest, h => by
      have ih := assembleOrganize_eq_map source rest
        (fun a ha => h a (List.mem_cons_of_mem _ ha))
      simp [assembleOrganize, ih, resolveAction]
  | OrganizeAction.page i :: rest, h => by
      have hi := h _ (List.mem_cons_self _ _)
      have hr : 0 ≤ i ∧ i < (source.length : Int) := by
        simpa [actionInRange] using hi
      obtain ⟨p, hp⟩ := copyPage_inRange source i hr.1 hr.2
      have ih := assembleOrganize_eq_map source rest
        (fun a ha => h a (List.mem_cons_of_mem _ ha))
      have hres : resolveAction source (OrganizeAction.page i) = p := by
        simp [resolveAction, hp]
      simp [assembleOrganize, hp, ih, hres]

/-- Claim C1: for a source document and an operation list of in-range copy
indices and blank markers, the reorganize flow produces an output with
exactly one page per operation, in list order: each copy operation
contributes the referenced source page and each blank marker the blank
page, and the handler responds with the serialized result. -/
theorem organize_valid_actions (source : List Page) (actions : List OrganizeAction)
    (h : ∀ a ∈ actions, actionInRange source a = true) :
    assembleOrganize source actions = some (actions.map (resolveAction source)) ∧
    (actions.map (resolveAction source)).length = actions.length ∧
    organizeHandler source actions =
      Except.ok (save (actions.map (resolveAction source))) := by
  have he := assembleOrganize_eq_map source actions h
  exact ⟨he, List.length_map _ _, by simp [organizeHandler, he, organizeFinish]⟩

/-- Witness for claim C1 at a two-page source and three operations. -/
theorem organize_valid_actions_witness :
    (∀ a ∈ [OrganizeAction.page 1, OrganizeAction.blank, OrganizeAction.page 0],
        actionInRange [⟨some 10, 0⟩, ⟨some 20, 0⟩] a = true) ∧
    assembleOrganize [⟨some 10, 0⟩, ⟨some 20, 0⟩]
        [OrganizeAction.page 1, OrganizeAction.blank, OrganizeAction.page 0] =
      some ([OrganizeAction.page 1, OrganizeAction.blank, OrganizeAction.page 0].map
        (resolveAction [⟨some 10, 0⟩, ⟨some 20, 0⟩])) :=
  ⟨by decide, (organize_valid_actions _ _ (by decide)).1⟩

/-- Claim C2 counterexample: a source page with pre-existing rotation 90
and a rotate action with angle 360 (normalized angle 0) yields an output
page whose rotation is still 90, not the normalized angle 0 — the code
skips `setRotation` when the normalized angle is zero, so the inherited
rotation survives. -/
theorem rotate_angle360_keeps_source_rotation :
    assembleRotate [⟨some 1, 90⟩] [⟨0, 360⟩] = some [⟨some 1, 90⟩] ∧
    normalizeAngle 360 = 0 ∧
    normalizeAngle 450 = 90 ∧ normalizeAngle (-90) = 270 ∧
    (Page.mk (some 1) 90).rotation ≠ normalizeAngle 360 := by decide

/-- Claim C2 as amended: for an in-range index the rotate flow appends the
copied source page with the rotation treatment of src/app.js lines
575-578: when the normalized angle `(rotation % 360 + 360) % 360` is
nonzero it is set on the copied page, and when it is zero the copied page
keeps the rotation inherited from the source page; the normalized angle
always lies in `[0, 360)`. -/
theorem rotate_action_rotation (source : List Page) (i rotation : Int)
    (h0 : 0 ≤ i) (h1 : i < (source.length : Int)) :
    ∃ p, copyPage source i = some p ∧
      assembleRotate source [⟨i, rotation⟩] = some [applyRotation p rotation] ∧
      (normalizeAngle rotation ≠ 0 →
        (applyRotation p rotation).rotation = normalizeAngle rotation) ∧
      (normalizeAngle rotation = 0 → applyRotation p rotation = p) ∧
      0 ≤ normalizeAngle rotation ∧ normalizeAngle rotation < 360 := by
  obtain ⟨p, hp⟩ := copyPage_inRange source i h0 h1
  have hge : ¬ i ≥ (source.length : Int) := by omega
  refine ⟨p, hp, ?_, ?_, ?_,
    (normalizeAngle_bounds rotation).1, (normalizeAngle_bounds rotation).2⟩
  · simp [assembleRotate, hge, hp]
  · intro hne; simp [applyRotation, hne]
  · intro heq; simp [applyRotation, heq]

/-- Witness for claim C2 at a one-page source and angle -90. -/
theorem rotate_action_rotation_witness :
    (0 ≤ (0 : Int)) ∧ ((0 : Int) < (([⟨some 1, 0⟩] : List Page).length : Int)) ∧
    (∃ p, copyPage [⟨some 1, 0⟩] 0 = some p ∧
      assembleRotate [⟨some 1, 0⟩] [⟨0, -90⟩] = some [applyRotation p (-90)] ∧
      (normalizeAngle (-90) ≠ 0 →
        (applyRotation p (-90)).rotation = normalizeAngle (-90)) ∧
      (normalizeAngle (-90) = 0 → applyRotation p (-90) = p) ∧
      0 ≤ normalizeAngle (-90) ∧ normalizeAngle (-90) < 360) :=
  ⟨by decide, by decide,
    rotate_action_rotation [⟨some 1, 0⟩] 0 (-90) (by decide) (by decide)⟩

/-- Claim C3 counterexample: the rotate loop only guards indices at or
above the page count; a negative index is not skipped — the page copy
fails, the loop is aborted and the whole request answers 500, instead of
the output containing the remaining in-range actions. -/
theorem rotate_negative_index_aborts :
    assembleRotate [⟨some 1, 0⟩] [⟨-1, 90⟩] = none ∧
    rotateHandler [⟨some 1, 0⟩] [⟨-1, 90⟩] = Except.error 500 ∧
    assembleRotate [⟨some 1, 0⟩] [⟨-1, 90⟩] ≠ some [] := by decide

/-- Claim C3 as amended: when every action index is nonnegative, the
rotate loop skips exactly the actions whose index is at or above the page
count, processes the rest, and the output contains exactly the pages for
the in-range actions in list order. -/
theorem rotate_skips_only_high_indices (source : List Page) :
    ∀ actions : List RotateAction,
      (∀ a ∈ actions, 0 ≤ a.originalIndex) →
      assembleRotate source actions = some (rotateResolve source actions)
  | [], _ => rfl
  | a :: rest, h => by
      have ih := rotate_skips_only_high_indices source rest
        (fun b hb => h b (List.mem_cons_of_mem _ hb))
      have ha := h a (List.mem_cons_self _ _)
      by_cases hge : a.originalIndex ≥ (source.length : Int)
      · have hnot : ¬ a.originalIndex < (source.length : Int) := by omega
        simp [assembleRotate, hge, ih, rotateResolve, List.filter_cons, hnot]
      · have hlt : a.originalIndex < (source.length : Int) := by omega
        obtain ⟨p, hp⟩ := copyPage_inRange source a.originalIndex ha hlt
        simp [assembleRotate, hge, hp, ih, rotateResolve, List.filter_cons, hlt]

/-- Witness for claim C3: a two-page source with one out-of-count index
among the actions. -/
theorem rotate_skips_only_high_indices_witness :
    (∀ a ∈ ([⟨0, 90⟩, ⟨5, 0⟩, ⟨1, 180⟩] : List RotateAction), 0 ≤ a.originalIndex) ∧
    assembleRotate [⟨some 1, 0⟩, ⟨some 2, 0⟩] [⟨0, 90⟩, ⟨5, 0⟩, ⟨1, 180⟩] =
      some (rotateResolve [⟨some 1, 0⟩, ⟨some 2, 0⟩] [⟨0, 90⟩, ⟨5, 0⟩, ⟨1, 180⟩]) :=
  ⟨by decide, rotate_skips_only_high_indices _ _ (by decide)⟩

/-- When a bad page index occurs anywhere in the action list, the
reorganize loop produces no document: the failing copy throws and the
catch block takes over. -/
theorem assembleOrganize_none_of_bad (source : List Page) (i : Int)
    (hbad : i < 0 ∨ (source.length : Int) ≤ i) :
    ∀ actions : List OrganizeAction, OrganizeAction.page i ∈ actions →
      assembleOrganize source actions = none
  | [], hmem => absurd hmem (List.not_mem_nil _)
  | OrganizeAction.blank :: rest, hmem => by
      have hrest : OrganizeAction.page i ∈ rest := by
        rcases List.mem_cons.mp hmem with h | h
        · exact absurd h (by simp)
        · exact h
      simp [assembleOrganize, assembleOrganize_none_of_bad source i hbad rest hrest]
  | OrganizeAction.page j :: rest, hmem => by
      rcases List.mem_cons.mp hmem with h | h
      · have hij : i = j := by injection h
        subst hij
        simp [assembleOrganize, copyPage_outOfRange source i hbad]
      · have ih := assembleOrganize_none_of_bad source i hbad rest h
        cases hcp : copyPage source j with
        | none => simp [assembleOrganize, hcp]
        | some p => simp [assembleOrganize, hcp, ih]

/-- Claim C4 counterexample: a reorganize action list with one valid and
one out-of-range index yields no output at all — the request answers 500
rather than skipping the bad operation and keeping the valid page. -/
theorem organize_out_of_range_example :
    assembleOrganize [⟨some 1, 0⟩] [OrganizeAction.page 0, OrganizeAction.page 1] = none ∧
    organizeHandler [⟨some 1, 0⟩] [OrganizeAction.page 0, OrganizeAction.page 1] =
      Except.error 500 ∧
    assembleOrganize [⟨some 1, 0⟩] [OrganizeAction.page 0, OrganizeAction.page 1] ≠
      some [⟨some 1, 0⟩] := by decide

/-- Claim C4 as amended: an out-of-range page index in the reorganize flow
aborts the whole job — the loop has no range guard, the failing copy
throws, and the handler answers 500 with no output document, regardless of
the remaining valid operations. -/
theorem organize_out_of_range_aborts (source : List Page)
    (actions : List OrganizeAction) (i : Int)
    (hmem : OrganizeAction.page i ∈ actions)
    (hbad : i < 0 ∨ (source.length : Int) ≤ i) :
    assembleOrganize source actions = none ∧
    organizeHandler source actions = Except.error 500 := by
  have hn := assembleOrganize_none_of_bad source i hbad actions hmem
  exact ⟨hn, by simp [organizeHandler, hn]⟩

/-- Witness for claim C4 at a one-page source. -/
theorem organize_out_of_range_aborts_witness :
    (OrganizeAction.page 3 ∈ [OrganizeAction.blank, OrganizeAction.page 3]) ∧
    ((3 : Int) < 0 ∨ ((([⟨some 1, 0⟩] : List Page).length : Int) ≤ 3)) ∧
    (assembleOrganize [⟨some 1, 0⟩] [OrganizeAction.blank, OrganizeAction.page 3] = none ∧
      organizeHandler [⟨some 1, 0⟩] [OrganizeAction.blank, OrganizeAction.page 3] =
        Except.error 500) :=
  ⟨by decide, by decide,
    organize_out_of_range_aborts _ _ 3 (by decide) (by decide)⟩

/-- Claim C5: an empty action list is accepted by the reorganize flow and
produces a zero-page output document whose serialization is a non-empty
byte result, returned to the caller. -/
theorem organize_empty_actions (source : List Page) :
    assembleOrganize source [] = some [] ∧
    organizeHandler source [] = Except.ok (save []) ∧
    save [] ≠ [] := by
  exact ⟨rfl, rfl, by decide⟩

/-- Claim C6: assembly is deterministic — both assembly flows are pure
functions of the source document and the action list, so two runs on equal
inputs produce identical serialized results. -/
theorem assemble_deterministic (s1 s2 : List Page) (a1 a2 : List OrganizeAction)
    (r1 r2 : List RotateAction) (hs : s1 = s2) (ha : a1 = a2) (hr : r1 = r2) :
    organizeHandler s1 a1 = organizeHandler s2 a2 ∧
    rotateHandler s1 r1 = rotateHandler s2 r2 := by
  subst hs; subst ha; subst hr
  exact ⟨rfl, rfl⟩

/-- Witness for claim C6 at concrete inputs. -/
theorem assemble_deterministic_witness :
    organizeHandler [⟨some 1, 0⟩] [OrganizeAction.page 0] =
      organizeHandler [⟨some 1, 0⟩] [OrganizeAction.page 0] ∧
    rotateHandler [⟨some 1, 0⟩] [⟨0, 90⟩] = rotateHandler [⟨some 1, 0⟩] [⟨0, 90⟩] :=
  assemble_deterministic _ _ _ _ _ _ rfl rfl rfl

/-- Claim C7 counterexample: the reorganize flow has no empty-result
check — with an empty byte result its response step still answers success,
not a 500 error. -/
theorem organize_no_empty_bytes_check :
    organizeFinish [] = Except.ok [] ∧ organizeFinish [] ≠ Except.error 500 := by
  decide

/-- Claim C7 as amended: only the rotate flow treats an empty serialized
result as fatal, answering 500; the reorganize flow performs no such check
and responds with a success for the same bytes. -/
theorem empty_bytes_rotate_500 (bytes : List Int) (h : bytes.length = 0) :
    rotateFinish bytes = Except.error 500 ∧
    organizeFinish bytes = Except.ok bytes := by
  exact ⟨by simp [rotateFinish, h], rfl⟩

/-- Witness for claim C7 at the empty byte result. -/
theorem empty_bytes_rotate_500_witness :
    ([] : List Int).length = 0 ∧
    (rotateFinish [] = Except.error 500 ∧ organizeFinish [] = Except.ok []) :=
  ⟨rfl, empty_bytes_rotate_500 [] rfl⟩

/-- Claim C9 counterexample: a compression parameter parsing to 0 is falsy
in JS, so `parseInt(...) || 60` replaces it by 60 and the Ghostscript
setting is `/ebook`, not the `/prepress` the below-40 rule predicts. -/
theorem compress_zero_defaults_to_ebook :
    compressPdfRoute (some 0) = CompressMethod.standard GsSetting.ebook ∧
    chooseSetting 0 = GsSetting.prepress ∧
    CompressMethod.standard GsSetting.ebook ≠
      CompressMethod.standard GsSetting.prepress := by decide

/-- Claim C9 as amended: the extreme path is taken exactly when the
parameter parses to an integer at least 90; a missing, non-numeric or zero
parameter defaults to 60 and takes the Ghostscript path with `/ebook`; any
other parsed value below 90 takes the Ghostscript path with the setting
chain `/screen` from 80, `/ebook` from 60, `/printer` from 40 and
`/prepress` below 40. -/
theorem compress_pdf_routing (parsed : Option Int) :
    (compressPdfRoute parsed = CompressMethod.extreme ↔
      ∃ n, parsed = some n ∧ 90 ≤ n) ∧
    (parsed = none → compressPdfRoute parsed = CompressMethod.standard GsSetting.ebook) ∧
    (parsed = some 0 → compressPdfRoute parsed = CompressMethod.standard GsSetting.ebook) ∧
    (∀ n, parsed = some n → n ≠ 0 → n < 90 →
      compressPdfRoute parsed = CompressMethod.standard (chooseSetting n)) ∧
    (∀ n : Int, (80 ≤ n → chooseSetting n = GsSetting.screen) ∧
      (60 ≤ n → n < 80 → chooseSetting n = GsSetting.ebook) ∧
      (40 ≤ n → n < 60 → chooseSetting n = GsSetting.printer) ∧
      (n < 40 → chooseSetting n = GsSetting.prepress)) := by
  have hset : ∀ n : Int, (80 ≤ n → chooseSetting n = GsSetting.screen) ∧
      (60 ≤ n → n < 80 → chooseSetting n = GsSetting.ebook) ∧
      (40 ≤ n → n < 60 → chooseSetting n = GsSetting.printer) ∧
      (n < 40 → chooseSetting n = GsSetting.prepress) := by
    intro n
    unfold chooseSetting
    refine ⟨fun h => ?_, fun h1 h2 => ?_, fun h1 h2 => ?_, fun h => ?_⟩ <;>
      split_ifs <;> first | rfl | omega
  cases parsed with
  | none =>
      refine ⟨⟨fun h => absurd h (by decide), ?_⟩, fun _ => by decide,
        fun h => Option.noConfusion h, fun n hn => Option.noConfusion hn, hset⟩
      rintro ⟨n, hn, _⟩
      exact Option.noConfusion hn
  | some v =>
      by_cases hv : v = 0
      · subst hv
        refine ⟨⟨fun h => absurd h (by decide), ?_⟩, fun h => Option.noConfusion h,
          fun _ => by decide, ?_, hset⟩
        · rintro ⟨n, hn, h90⟩
          injection hn with hn
          omega
        · intro n hn hne h90
          injection hn with hn
          omega
      · have hj : jsParseIntOrDefault (some v) 60 = v := by
          simp [jsParseIntOrDefault, hv]
        by_cases h90 : 90 ≤ v
        · have hr : compressPdfRoute (some v) = CompressMethod.extreme := by
            simp [compressPdfRoute, hj, h90]
          refine ⟨⟨fun _ => ⟨v, rfl, h90⟩, fun _ => hr⟩,
            fun h => Option.noConfusion h, ?_, ?_, hset⟩
          · intro h
            injection h with h
            omega
          · intro n hn hne hlt
            injection hn with hn
            omega
        · have hr : compressPdfRoute (some v) =
              CompressMethod.standard (chooseSetting v) := by
            simp [compressPdfRoute, hj, h90]
          refine ⟨⟨?_, ?_⟩, fun h => Option.noConfusion h, ?_, ?_, hset⟩
          · intro h
            rw [hr] at h
            exact CompressMethod.noConfusion h
          · rintro ⟨n, hn, hge⟩
            injection hn with hn
            omega
          · intro h
            injection h with h
            omega
          · intro n hn hne hlt
            injection hn with hn
            subst hn
            exact hr

/-- Witness for claim C9: the extreme path at 95, the standard path at
45. -/
theorem compress_pdf_routing_witness :
    compressPdfRoute (some 95) = CompressMethod.extreme ∧
    compressPdfRoute (some 45) = CompressMethod.standard (chooseSetting 45) :=
  ⟨(compress_pdf_routing (some 95)).1.mpr ⟨95, rfl, by decide⟩,
   (compress_pdf_routing (some 45)).2.2.2.1 45 rfl (by decide) (by decide)⟩

/-- Claim C10 counterexample: a compression parameter parsing to 0 is
falsy in JS, so the quality is computed from the default 60 — the result
is 40, not the `max(10, 100 - 0) = 100` the stated formula predicts. -/
theorem upload_quality_zero_compression :
    uploadQuality (some 0) = 40 ∧ uploadQuality (some 0) ≠ max 10 (100 - 0) := by
  decide

/-- Claim C10 as amended: the encoder quality is
`max(10, 100 - compression)` where a missing, non-numeric or zero
parameter makes the compression 60 (quality 40); the quality is never
below 10 however large the requested compression. -/
theorem upload_quality_spec (parsed : Option Int) :
    10 ≤ uploadQuality parsed ∧
    (parsed = none → uploadQuality parsed = 40) ∧
    (parsed = some 0 → uploadQuality parsed = 40) ∧
    (∀ n, parsed = some n → n ≠ 0 → uploadQuality parsed = max 10 (100 - n)) := by
  refine ⟨le_max_left _ _, ?_, ?_, ?_⟩
  · intro h; subst h; decide
  · intro h; subst h; decide
  · intro n h hne
    subst h
    simp [uploadQuality, jsParseIntOrDefault, hne]

/-- Witness for claim C10 at an extreme compression request of 150. -/
theorem upload_quality_spec_witness :
    10 ≤ uploadQuality (some 150) ∧ uploadQuality (some 150) = max 10 (100 - 150) :=
  ⟨(upload_quality_spec (some 150)).1,
   (upload_quality_spec (some 150)).2.2.2 150 rfl (by decide)⟩
